import Mathlib

/-!
Verification of the clipper decode-pipeline core (`net_decode/src/listener.rs`)
and the devtools bridge (`devtools_server/src/lib.rs`) against their design
specification.  Rust machine integers that only store values (timestamps,
type ids) are modelled as `Nat`; fallible operations return `Except`/`Option`.
-/

namespace Clipper

/-! ## Side-data registry: `TypeMap<V>` (listener.rs lines 15-27)

`TypeMap<V>` wraps a `BTreeMap<TypeId, V>`.  `TypeId` values are opaque,
totally ordered and distinct for distinct Rust types; we model them as `Nat`.
The `BTreeMap` is modelled as an association list with at most one entry per
key; `insert` overwrites in place, `get` looks the key up. -/

/-- Model of `std::any::TypeId`: an opaque identifier, distinct Rust types
have distinct identifiers. -/
abbrev TypeId := Nat

/-- `TypeMap<V>(BTreeMap<TypeId, V>)`, modelled as an association list. -/
def TypeMap (V : Type) : Type := List (TypeId × V)

/-- The empty map, `TypeMap::default()`. -/
def TypeMap.empty {V : Type} : TypeMap V := []

/-- `TypeMap::get::<T>()`: `self.0.get(&TypeId::of::<T>())`. The logical type
`T` is represented by its `TypeId` `t`. -/
def TypeMap.get {V : Type} (m : TypeMap V) (t : TypeId) : Option V :=
  match m with
  | [] => none
  | (k, v) :: rest => if k = t then some v else TypeMap.get rest t

/-- `TypeMap::insert::<T>(val)`: `self.0.insert(TypeId::of::<T>(), val)` —
a `BTreeMap` insert stores `val` under the key, overwriting any previous
value for that key and leaving all other keys untouched. -/
def TypeMap.insert {V : Type} (m : TypeMap V) (t : TypeId) (v : V) : TypeMap V :=
  match m with
  | [] => [(t, v)]
  | (k, w) :: rest =>
      if k = t then (k, v) :: rest else (k, w) :: TypeMap.insert rest t v

/-- A sequence of `insert` operations applied to `TypeMap::default()`:
each element `(t, v)` is one call `insert::<T>(v)`. -/
def TypeMap.applyInserts {V : Type} (ops : List (TypeId × V)) : TypeMap V :=
  ops.foldl (fun m op => m.insert op.1 op.2) TypeMap.empty

theorem TypeMap.get_insert_self {V : Type} (m : TypeMap V) (t : TypeId) (v : V) :
    (m.insert t v).get t = some v := by
  induction m with
  | nil => simp [TypeMap.insert, TypeMap.get]
  | cons hd tl ih =>
      obtain ⟨k, w⟩ := hd
      by_cases h : k = t <;> simp [TypeMap.insert, TypeMap.get, h, ih]

theorem TypeMap.get_insert_other {V : Type} (m : TypeMap V) (t u : TypeId) (v : V)
    (h : t ≠ u) : (m.insert t v).get u = m.get u := by
  induction m with
  | nil => simp [TypeMap.insert, TypeMap.get, h]
  | cons hd tl ih =>
      obtain ⟨k, w⟩ := hd
      by_cases hk : k = t
      · subst hk
        simp [TypeMap.insert, TypeMap.get, h]
      · simp [TypeMap.insert, TypeMap.get, hk, ih]

theorem TypeMap.get_applyInserts_not_mem {V : Type} (ops : List (TypeId × V))
    (u : TypeId) (h : u ∉ ops.map Prod.fst) :
    (TypeMap.applyInserts ops).get u = none := by
  suffices H : ∀ (m : TypeMap V), m.get u = none →
      (ops.foldl (fun m op => m.insert op.1 op.2) m).get u = none by
    exact H TypeMap.empty rfl
  induction ops with
  | nil => intro m hm; simpa [TypeMap.applyInserts] using hm
  | cons op rest ih =>
      intro m hm
      simp only [List.map_cons, List.mem_cons] at h
      push_neg at h
      obtain ⟨hne, hrest⟩ := h
      have : (m.insert op.1 op.2).get u = none := by
        rw [TypeMap.get_insert_other m op.1 u op.2 (fun e => hne e.symm)]
        exact hm
      simpa [List.foldl_cons] using ih hrest (m.insert op.1 op.2) this

/-- C1: after `insert::<T>(a); insert::<T>(b)`, `get::<T>()` returns `Some(b)`
and (when `a ≠ b`) never `a`; and `get::<U>()` after any sequence of inserts
none of which targeted `U` returns `None`. -/
theorem C1_typemap_uniqueness {V : Type} (m : TypeMap V) (a b : V) (t : TypeId)
    (ops : List (TypeId × V)) (u : TypeId) (hu : u ∉ ops.map Prod.fst) :
    ((m.insert t a).insert t b).get t = some b ∧
      (a ≠ b → ((m.insert t a).insert t b).get t ≠ some a) ∧
      (TypeMap.applyInserts ops).get u = none := by
  refine ⟨TypeMap.get_insert_self _ t b, ?_, TypeMap.get_applyInserts_not_mem ops u hu⟩
  intro hne
  rw [TypeMap.get_insert_self _ t b]
  intro hcontra
  exact hne (Option.some.injEq b a ▸ hcontra).symm

/-- Witness for C1 at concrete inputs. -/
theorem C1_typemap_uniqueness_witness :
    (7 : TypeId) ∉ ([((1 : TypeId), (10 : Nat)), (2, 20)].map Prod.fst) ∧
      ((TypeMap.empty.insert 1 (10 : Nat)).insert 1 20).get 1 = some 20 ∧
      ((10 : Nat) ≠ 20 → ((TypeMap.empty.insert 1 (10 : Nat)).insert 1 20).get 1 ≠ some 10) ∧
      (TypeMap.applyInserts [((1 : TypeId), (10 : Nat)), (2, 20)]).get 7 = none := by
  have h : (7 : TypeId) ∉ ([((1 : TypeId), (10 : Nat)), (2, 20)].map Prod.fst) := by decide
  exact ⟨h, C1_typemap_uniqueness TypeMap.empty 10 20 1 [(1, 10), (2, 20)] 7 h⟩

/-- C10: inserting under logical type `T` leaves `get::<U>()` for any other
logical type `U ≠ T` exactly as it was. -/
theorem C10_typemap_frame {V : Type} (m : TypeMap V) (v : V) (t u : TypeId)
    (h : t ≠ u) : (m.insert t v).get u = m.get u :=
  TypeMap.get_insert_other m t u v h

/-- Witness for C10 at concrete inputs. -/
theorem C10_typemap_frame_witness :
    (1 : TypeId) ≠ 2 ∧
      ((TypeMap.empty.insert 2 (5 : Nat)).insert 1 9).get 2 =
        (TypeMap.empty.insert 2 (5 : Nat)).get 2 := by
  have h : (1 : TypeId) ≠ 2 := by decide
  exact ⟨h, C10_typemap_frame (TypeMap.empty.insert 2 (5 : Nat)) 9 1 2 h⟩

/-! ## Flow identity and timing model (listener.rs lines 29-39) -/

/-- Modelled from the spec: `IPTarget` (the FlowIdentity) lives in
`net_decode/src/chomp.rs`, which is not among the provided sources; the spec
describes it as an opaque, hashable, totally-ordered value identifying the
two endpoints of a flow. -/
structure IPTarget where
  endpointA : Nat
  endpointB : Nat
deriving DecidableEq, Repr

/-- `Nanos = u64`, nanoseconds since the Unix epoch (listener.rs line 30). -/
abbrev Nanos := Nat

/-- `TimingInfo` (listener.rs lines 32-39). -/
structure TimingInfo where
  received_on_wire : Nanos
  other_times : TypeMap Nanos

/-- Modelled from the spec: the concrete protocol layers (TCP reassembly,
TLS decryption, HTTP framing) that transform a message are outside the
provided sources; per the spec they may only append milestone timestamps to
`other_times` (under their own marker type, via `TypeMap::insert`), and
`received_on_wire` is written only at ingestion.  One layer action on the
timing metadata is therefore a milestone insertion. -/
inductive TimingOp where
  | addMilestone (marker : TypeId) (time : Nanos)

/-- Apply one layer's timing action. -/
def TimingInfo.applyOp (ti : TimingInfo) : TimingOp → TimingInfo
  | .addMilestone marker time =>
      { ti with other_times := ti.other_times.insert marker time }

/-- Apply the timing actions of a whole chain of layers, in order. -/
def TimingInfo.applyOps (ti : TimingInfo) (ops : List TimingOp) : TimingInfo :=
  ops.foldl TimingInfo.applyOp ti

theorem TypeMap.isSome_get_insert {V : Type} (m : TypeMap V) (k t : TypeId) (v : V)
    (h : (m.get t).isSome) : ((m.insert k v).get t).isSome := by
  by_cases hk : k = t
  · subst hk; rw [TypeMap.get_insert_self]; rfl
  · rwa [TypeMap.get_insert_other m k t v hk]

/-- C6: as a message passes through any sequence of layer timing actions,
`received_on_wire` is never overwritten, and entries of `other_times` are
only ever added — a marker present before is still present after. -/
theorem C6_timing_immutable (ti : TimingInfo) (ops : List TimingOp) :
    (ti.applyOps ops).received_on_wire = ti.received_on_wire ∧
      ∀ marker : TypeId, (ti.other_times.get marker).isSome →
        ((ti.applyOps ops).other_times.get marker).isSome := by
  induction ops generalizing ti with
  | nil => exact ⟨rfl, fun _ h => h⟩
  | cons op rest ih =>
      obtain ⟨marker, time⟩ := op
      have step : (TimingInfo.applyOp ti (.addMilestone marker time)).received_on_wire
          = ti.received_on_wire := rfl
      obtain ⟨h1, h2⟩ := ih (ti.applyOp (.addMilestone marker time))
      refine ⟨by simpa [TimingInfo.applyOps, step] using h1, ?_⟩
      intro mk hmk
      have : ((ti.applyOp (.addMilestone marker time)).other_times.get mk).isSome := by
        simpa [TimingInfo.applyOp] using
          TypeMap.isSome_get_insert ti.other_times marker mk time hmk
      simpa [TimingInfo.applyOps] using h2 mk this

/-- Witness for C6 at a concrete timing record and op list. -/
theorem C6_timing_immutable_witness :
    ((TimingInfo.mk 42 (TypeMap.empty.insert 3 100)).applyOps
        [.addMilestone 5 200, .addMilestone 3 300]).received_on_wire = 42 ∧
      (((TimingInfo.mk 42 (TypeMap.empty.insert 3 100)).other_times.get 3).isSome →
        (((TimingInfo.mk 42 (TypeMap.empty.insert 3 100)).applyOps
            [.addMilestone 5 200, .addMilestone 3 300]).other_times.get 3).isSome) := by
  obtain ⟨h1, h2⟩ := C6_timing_immutable (TimingInfo.mk 42 (TypeMap.empty.insert 3 100))
    [.addMilestone 5 200, .addMilestone 3 300]
  exact ⟨h1, h2 3⟩

/-! ## Side-data runtime type identification (listener.rs lines 41-54)

`SideData` requires `as_any(&self) -> &dyn Any`; a blanket impl
`impl<T: Debug + Any + Sized + Send + Sync + DynClone> SideData for T`
returns `self`.  We model a value's runtime tag (`TypeId` of the value
behind the resulting `&dyn Any`) for the two ways `as_any` can be invoked
on a boxed value. -/

/-- `TypeId::of::<Box<dyn SideData>>` — the box type's own id.  It is a
single fixed Rust type, to which we assign the reserved id `0`. -/
def boxDynSideDataTypeId : TypeId := 0

/-- An erased concrete side-data value together with `TypeId::of` its
concrete type. -/
structure ConcreteSideData where
  tyId : TypeId
deriving DecidableEq, Repr

/-- `(&*some_box).as_any().type_id()`: dynamic dispatch through the
`dyn SideData` vtable reaches the blanket impl instantiated at the erased
concrete type, whose `as_any` returns `self` (listener.rs lines 48-52), so
the recoverable tag is the inner concrete value's `TypeId`. -/
def dynSideDataAsAnyTypeId (v : ConcreteSideData) : TypeId := v.tyId

/-- A `Box<dyn SideData>` value owning an erased concrete value. -/
structure BoxDynSideData where
  inner : ConcreteSideData
deriving DecidableEq, Repr

/-- `some_box.as_any().type_id()` *without* re-dereferencing:
`Box<dyn SideData>` is itself `Debug + Any + Sized + Send + Sync + DynClone`,
so the blanket impl (listener.rs line 48) applies to the box type itself and
`as_any` returns the box — the recoverable tag is
`TypeId::of::<Box<dyn SideData>>`, the footgun the source comment
(listener.rs lines 42-44) warns about. -/
def boxSideDataAsAnyTypeId (_ : BoxDynSideData) : TypeId := boxDynSideDataTypeId

/-- `<dyn Any>::downcast_ref::<T>()` succeeds iff the `TypeId` of the value
behind the `&dyn Any` equals `TypeId::of::<T>`. -/
def downcastSucceeds (anyTyId target : TypeId) : Bool := anyTyId == target

/-- C3 counterexample: a concrete side-data value of type id 1 passed as a
`Box<dyn SideData>`, with `as_any` invoked on the box itself: the recovered
tag is the box type's id, not the inner value's, and downcasting to the
original concrete type fails. -/
theorem C3_boxed_as_any_counterexample :
    downcastSucceeds
        (boxSideDataAsAnyTypeId (BoxDynSideData.mk (ConcreteSideData.mk 1))) 1 = false ∧
      boxSideDataAsAnyTypeId (BoxDynSideData.mk (ConcreteSideData.mk 1)) ≠
        dynSideDataAsAnyTypeId (ConcreteSideData.mk 1) := by
  decide

/-- C3 amended: the tag of a boxed value must be recovered from the inner
value by re-dereferencing (`(&*some_box).as_any()`), in which case it is the
inner concrete value's `TypeId` and downcasting to the original concrete
type succeeds; invoking `as_any` on the box value itself instead yields the
wrapper type's `TypeId`, and downcasting to the inner concrete type then
fails whenever that type is not the box type itself. -/
theorem C3_as_any_rederef_rule (b : BoxDynSideData)
    (h : b.inner.tyId ≠ boxDynSideDataTypeId) :
    downcastSucceeds (dynSideDataAsAnyTypeId b.inner) b.inner.tyId = true ∧
      boxSideDataAsAnyTypeId b = boxDynSideDataTypeId ∧
      downcastSucceeds (boxSideDataAsAnyTypeId b) b.inner.tyId = false := by
  refine ⟨by simp [downcastSucceeds, dynSideDataAsAnyTypeId], rfl, ?_⟩
  simpa [downcastSucceeds, boxSideDataAsAnyTypeId] using (Ne.symm h)

/-- Witness for C3's amended theorem at a concrete boxed value. -/
theorem C3_as_any_rederef_rule_witness :
    (BoxDynSideData.mk (ConcreteSideData.mk 2)).inner.tyId ≠ boxDynSideDataTypeId ∧
      downcastSucceeds
        (dynSideDataAsAnyTypeId (BoxDynSideData.mk (ConcreteSideData.mk 2)).inner)
        (BoxDynSideData.mk (ConcreteSideData.mk 2)).inner.tyId = true := by
  have h : (BoxDynSideData.mk (ConcreteSideData.mk 2)).inner.tyId
      ≠ boxDynSideDataTypeId := by decide
  exact ⟨h, (C3_as_any_rederef_rule (BoxDynSideData.mk (ConcreteSideData.mk 2)) h).1⟩

/-! ## Reference listener implementations (listener.rs lines 86-122)

A listener call can have two kinds of effect besides updating the listener's
own state: forwarding derived messages downstream and emitting side data.
We make both explicit as a returned effect list (the Rust methods return
`()` and perform them as calls on the owned downstream listener). -/

/-- An effect a listener may produce during one call. -/
inductive ListenerEffect (T : Type) where
  | forwardData (timing : TimingInfo) (target : IPTarget) (to_client : Bool) (data : T)
  | forwardSideData (data : BoxDynSideData)

/-- `NoOpListener {}` (listener.rs lines 86-87): a stateless unit struct. -/
structure NoOpListener where
deriving DecidableEq, Repr

/-- `NoOpListener::on_data` (listener.rs lines 90-92): `// do nothing! :D`. -/
def NoOpListener.on_data {T : Type} (l : NoOpListener) (_timing : TimingInfo)
    (_target : IPTarget) (_to_client : Bool) (_data : T) :
    NoOpListener × List (ListenerEffect T) := (l, [])

/-- `NoOpListener::on_side_data` (listener.rs line 94): empty body. -/
def NoOpListener.on_side_data {T : Type} (l : NoOpListener) (_data : BoxDynSideData) :
    NoOpListener × List (ListenerEffect T) := (l, [])

/-- C7: `NoOpListener` acknowledges and discards every input: its state is
unchanged and it forwards nothing, for every payload type, every
`(timing, target, to_client, data)` input and every side-data object. -/
theorem C7_noop_listener_discards {T : Type} (l : NoOpListener) (timing : TimingInfo)
    (target : IPTarget) (to_client : Bool) (data : T) (sd : BoxDynSideData) :
    l.on_data timing target to_client data = (l, ([] : List (ListenerEffect T))) ∧
      l.on_side_data sd = (l, ([] : List (ListenerEffect T))) :=
  ⟨rfl, rfl⟩

/-! ### Hex-dump listener (listener.rs lines 97-109) -/

/-- Hex digit character for a value below 16. -/
def hexDigit (n : Nat) : Char :=
  if n < 10 then Char.ofNat (48 + n) else Char.ofNat (87 + n)

/-- Two-digit hex rendering of a byte. -/
def hexByte (b : Nat) : List Char := [hexDigit (b / 16 % 16), hexDigit (b % 16)]

/-- Eight-digit hex rendering of a line offset. -/
def hexOffset (n : Nat) : List Char :=
  (List.range 8).map (fun i => hexDigit (n / 16 ^ (7 - i) % 16))

/-- Printable-ASCII column cell for a byte. -/
def asciiCell (b : Nat) : Char :=
  if 32 ≤ b ∧ b ≤ 126 then Char.ofNat b else '.'

/-- One rendered hexdump line: offset, hex bytes, ASCII column. -/
def hexLine (offset : Nat) (bs : List Nat) : List Char :=
  hexOffset offset ++ [' ', ' '] ++ (bs.map (fun b => hexByte b ++ [' '])).flatten
    ++ [' '] ++ bs.map asciiCell ++ ['\n']

/-- Modelled from the spec: the `hexdump` crate's `HexDumper` renderer is
part of this repository but not among the provided sources; the spec says
only that it renders raw-byte payloads for diagnostics.  We model a
canonical hexdump — 16 bytes per line, each line holding the offset, the hex
bytes and a printable-ASCII column — as a pure function of the bytes. -/
def hexDumpRender : Nat → List Nat → List Char
  | _, [] => []
  | offset, b :: rest =>
      hexLine offset ((b :: rest).take 16)
        ++ hexDumpRender (offset + 16) ((b :: rest).drop 16)
  termination_by _ l => l.length
  decreasing_by simp [List.length_drop]; omega

/-- `HexDumpListener {}` (listener.rs lines 97-98): a stateless unit struct. -/
structure HexDumpListener where
deriving DecidableEq, Repr

/-- `HexDumpListener::on_data` (listener.rs lines 101-106): logs
`"data {target:?} to_client={to_client}:\n"` followed by the hexdump of the
payload bytes, forwarding nothing.  The diagnostic text is returned
explicitly; the `tracing::info!` sink is the external log collector. -/
def HexDumpListener.on_data (l : HexDumpListener) (_timing : TimingInfo)
    (target : IPTarget) (to_client : Bool) (data : List Nat) :
    HexDumpListener × List Char :=
  (l, ("data (".toList ++ (toString target.endpointA).toList ++ ", ".toList
        ++ (toString target.endpointB).toList ++ ") to_client=".toList
        ++ (toString to_client).toList ++ [':', '\n'])
      ++ hexDumpRender 0 data)

/-- `HexDumpListener::on_side_data` (listener.rs line 108): empty body. -/
def HexDumpListener.on_side_data (l : HexDumpListener) (_data : BoxDynSideData) :
    HexDumpListener × List Char := (l, [])

/-- C8: rendering the same payload bytes twice in a row through the hex-dump
listener produces byte-identical diagnostic output — the rendering is a
deterministic function of the payload bytes, unaffected by having rendered
them before. -/
theorem C8_hexdump_deterministic (l : HexDumpListener) (timing : TimingInfo)
    (target : IPTarget) (to_client : Bool) (data : List Nat) :
    ((l.on_data timing target to_client data).1.on_data timing target to_client data).2
      = (l.on_data timing target to_client data).2 := rfl

/-! ## Devtools server (devtools_server/src/lib.rs)

### UTF-8 model

`ServerConnection::send` serializes a message with `serde_json::to_vec` and
then converts the byte vector with `String::from_utf8(text).unwrap()`.  We
model UTF-8 encoding (how a Rust `String`'s bytes are produced from its
scalar values) and the validation `String::from_utf8` performs. -/

/-- UTF-8 encoding of one Unicode scalar value, by width class. -/
def utf8EncodeScalar (n : Nat) : List Nat :=
  if n < 0x80 then [n]
  else if n < 0x800 then [0xC0 + n / 64, 0x80 + n % 64]
  else if n < 0x10000 then [0xE0 + n / 4096, 0x80 + n / 64 % 64, 0x80 + n % 64]
  else [0xF0 + n / 262144, 0x80 + n / 4096 % 64, 0x80 + n / 64 % 64, 0x80 + n % 64]

/-- UTF-8 encoding of a character sequence (the byte content of a Rust
`String` whose chars are `cs`). -/
def utf8Encode (cs : List Char) : List Nat :=
  (cs.map (fun c => utf8EncodeScalar c.toNat)).flatten

/-- Decoding helpers for `String::from_utf8` validation, one per
continuation byte of a multi-byte sequence; each consumes its byte from the
front of the list and, on the last byte of the sequence, yields the decoded
scalar value and the remaining bytes.  Non-recursive.
Continuation byte of a two-byte sequence with lead byte `b`. -/
def utf8Dec2 (b : Nat) : List Nat → Option (Nat × List Nat)
  | [] => none
  | b2 :: rest =>
      if 0x80 ≤ b2 ∧ b2 ≤ 0xBF then some ((b - 0xC0) * 64 + (b2 - 0x80), rest)
      else none

/-- Second continuation byte of a three-byte sequence; checks for overlong
encodings and surrogates. -/
def utf8Dec3b (b b2 : Nat) : List Nat → Option (Nat × List Nat)
  | [] => none
  | b3 :: rest =>
      if 0x80 ≤ b3 ∧ b3 ≤ 0xBF then
        if 0x800 ≤ (b - 0xE0) * 4096 + (b2 - 0x80) * 64 + (b3 - 0x80) ∧
            ¬(0xD800 ≤ (b - 0xE0) * 4096 + (b2 - 0x80) * 64 + (b3 - 0x80) ∧
              (b - 0xE0) * 4096 + (b2 - 0x80) * 64 + (b3 - 0x80) ≤ 0xDFFF) then
          some ((b - 0xE0) * 4096 + (b2 - 0x80) * 64 + (b3 - 0x80), rest)
        else none
      else none

/-- First continuation byte of a three-byte sequence. -/
def utf8Dec3 (b : Nat) : List Nat → Option (Nat × List Nat)
  | [] => none
  | b2 :: rest => if 0x80 ≤ b2 ∧ b2 ≤ 0xBF then utf8Dec3b b b2 rest else none

/-- Third continuation byte of a four-byte sequence; checks for overlong
encodings and values beyond U+10FFFF. -/
def utf8Dec4c (b b2 b3 : Nat) : List Nat → Option (Nat × List Nat)
  | [] => none
  | b4 :: rest =>
      if 0x80 ≤ b4 ∧ b4 ≤ 0xBF then
        if 0x10000 ≤ (b - 0xF0) * 262144 + (b2 - 0x80) * 4096
              + (b3 - 0x80) * 64 + (b4 - 0x80) ∧
            (b - 0xF0) * 262144 + (b2 - 0x80) * 4096
              + (b3 - 0x80) * 64 + (b4 - 0x80) ≤ 0x10FFFF then
          some ((b - 0xF0) * 262144 + (b2 - 0x80) * 4096
            + (b3 - 0x80) * 64 + (b4 - 0x80), rest)
        else none
      else none

/-- Second continuation byte of a four-byte sequence. -/
def utf8Dec4b (b b2 : Nat) : List Nat → Option (Nat × List Nat)
  | [] => none
  | b3 :: rest => if 0x80 ≤ b3 ∧ b3 ≤ 0xBF then utf8Dec4c b b2 b3 rest else none

/-- First continuation byte of a four-byte sequence. -/
def utf8Dec4 (b : Nat) : List Nat → Option (Nat × List Nat)
  | [] => none
  | b2 :: rest => if 0x80 ≤ b2 ∧ b2 ≤ 0xBF then utf8Dec4b b b2 rest else none

/-- Decode the first UTF-8 sequence of a byte list: classifies the lead byte
(rejecting stray continuation bytes `0x80..0xBF`, the always-overlong leads
`0xC0`/`0xC1`, and leads above `0xF4`) and consumes its continuation
bytes. -/
def utf8DecodeOne : List Nat → Option (Nat × List Nat)
  | [] => none
  | b :: rest =>
      if b < 0x80 then some (b, rest)
      else if 0xC2 ≤ b ∧ b ≤ 0xDF then utf8Dec2 b rest
      else if 0xE0 ≤ b ∧ b ≤ 0xEF then utf8Dec3 b rest
      else if 0xF0 ≤ b ∧ b ≤ 0xF4 then utf8Dec4 b rest
      else none

/-- Iterate `utf8DecodeOne` over the whole list.  The fuel argument only
bounds the number of sequences decoded; each sequence consumes at least one
byte, so fuel equal to the byte count always suffices. -/
def utf8DecodeLoop : Nat → List Nat → Option (List Nat)
  | _, [] => some []
  | 0, _ :: _ => none
  | fuel + 1, b :: rest =>
      match utf8DecodeOne (b :: rest) with
      | none => none
      | some (n, r) => (utf8DecodeLoop fuel r).map (n :: ·)

/-- `String::from_utf8` validation: decodes a byte sequence into Unicode
scalar values, rejecting truncated sequences, stray continuation bytes,
overlong encodings, surrogates and values beyond U+10FFFF — exactly the
sequences Rust's UTF-8 validation rejects. -/
def utf8Decode (l : List Nat) : Option (List Nat) := utf8DecodeLoop l.length l

theorem utf8DecodeOne_encodeScalar (n : Nat) (hv : Nat.isValidChar n)
    (bs : List Nat) :
    utf8DecodeOne (utf8EncodeScalar n ++ bs) = some (n, bs) := by
  have hv' : n < 0xd800 ∨ (0xdfff < n ∧ n < 0x110000) := hv
  by_cases h1 : n < 0x80
  · have he : utf8EncodeScalar n = [n] := by simp [utf8EncodeScalar, h1]
    rw [he, List.cons_append, List.nil_append, utf8DecodeOne]
    simp only [if_pos h1]
  · by_cases h2 : n < 0x800
    · have he : utf8EncodeScalar n = [0xC0 + n / 64, 0x80 + n % 64] := by
        simp [utf8EncodeScalar, h1, h2]
      rw [he, List.cons_append, List.cons_append, List.nil_append]
      have c1 : ¬(0xC0 + n / 64 < 0x80) := by omega
      have c2 : 0xC2 ≤ 0xC0 + n / 64 ∧ 0xC0 + n / 64 ≤ 0xDF := by
        constructor <;> omega
      have c3 : 0x80 ≤ 0x80 + n % 64 ∧ 0x80 + n % 64 ≤ 0xBF := by
        constructor <;> omega
      have cval : (0xC0 + n / 64 - 0xC0) * 64 + (0x80 + n % 64 - 0x80) = n := by omega
      rw [utf8DecodeOne]
      simp only [if_neg c1, if_pos c2]
      rw [utf8Dec2]
      simp only [if_pos c3, cval]
    · by_cases h3 : n < 0x10000
      · have hns : ¬(0xD800 ≤ n ∧ n ≤ 0xDFFF) := by
          rcases hv' with h | ⟨h, h'⟩ <;> omega
        have he : utf8EncodeScalar n
            = [0xE0 + n / 4096, 0x80 + n / 64 % 64, 0x80 + n % 64] := by
          simp [utf8EncodeScalar, h1, h2, h3]
        rw [he, List.cons_append, List.cons_append, List.cons_append, List.nil_append]
        have c1 : ¬(0xE0 + n / 4096 < 0x80) := by omega
        have c2 : ¬(0xC2 ≤ 0xE0 + n / 4096 ∧ 0xE0 + n / 4096 ≤ 0xDF) := by omega
        have c3 : 0xE0 ≤ 0xE0 + n / 4096 ∧ 0xE0 + n / 4096 ≤ 0xEF := by
          constructor <;> omega
        have c4a : 0x80 ≤ 0x80 + n / 64 % 64 ∧ 0x80 + n / 64 % 64 ≤ 0xBF := by
          constructor <;> omega
        have c4b : 0x80 ≤ 0x80 + n % 64 ∧ 0x80 + n % 64 ≤ 0xBF := by
          constructor <;> omega
        have cval : (0xE0 + n / 4096 - 0xE0) * 4096 + (0x80 + n / 64 % 64 - 0x80) * 64
            + (0x80 + n % 64 - 0x80) = n := by omega
        rw [utf8DecodeOne]
        simp only [if_neg c1, if_neg c2, if_pos c3]
        rw [utf8Dec3]
        simp only [if_pos c4a]
        rw [utf8Dec3b]
        simp only [if_pos c4b, cval]
        have c5 : 0x800 ≤ n ∧ ¬(0xD800 ≤ n ∧ n ≤ 0xDFFF) :=
          ⟨by omega, by simpa using hns⟩
        rw [if_pos c5]
      · have hmax : n < 0x110000 := by
          rcases hv' with h | ⟨h, h'⟩ <;> omega
        have he : utf8EncodeScalar n
            = [0xF0 + n / 262144, 0x80 + n / 4096 % 64, 0x80 + n / 64 % 64,
                0x80 + n % 64] := by
          simp [utf8EncodeScalar, h1, h2, h3]
        rw [he, List.cons_append, List.cons_append, List.cons_append, List.cons_append,
          List.nil_append]
        have c1 : ¬(0xF0 + n / 262144 < 0x80) := by omega
        have c2 : ¬(0xC2 ≤ 0xF0 + n / 262144 ∧ 0xF0 + n / 262144 ≤ 0xDF) := by omega
        have c3 : ¬(0xE0 ≤ 0xF0 + n / 262144 ∧ 0xF0 + n / 262144 ≤ 0xEF) := by omega
        have c4 : 0xF0 ≤ 0xF0 + n / 262144 ∧ 0xF0 + n / 262144 ≤ 0xF4 := by
          constructor <;> omega
        have c5a : 0x80 ≤ 0x80 + n / 4096 % 64 ∧ 0x80 + n / 4096 % 64 ≤ 0xBF := by
          constructor <;> omega
        have c5b : 0x80 ≤ 0x80 + n / 64 % 64 ∧ 0x80 + n / 64 % 64 ≤ 0xBF := by
          constructor <;> omega
        have c5c : 0x80 ≤ 0x80 + n % 64 ∧ 0x80 + n % 64 ≤ 0xBF := by
          constructor <;> omega
        have cval : (0xF0 + n / 262144 - 0xF0) * 262144
            + (0x80 + n / 4096 % 64 - 0x80) * 4096
            + (0x80 + n / 64 % 64 - 0x80) * 64 + (0x80 + n % 64 - 0x80) = n := by omega
        rw [utf8DecodeOne]
        simp only [if_neg c1, if_neg c2, if_neg c3, if_pos c4]
        rw [utf8Dec4]
        simp only [if_pos c5a]
        rw [utf8Dec4b]
        simp only [if_pos c5b]
        rw [utf8Dec4c]
        simp only [if_pos c5c, cval]
        have c6 : 0x10000 ≤ n ∧ n ≤ 0x10FFFF := ⟨by omega, by omega⟩
        rw [if_pos c6]

theorem utf8EncodeScalar_length_pos (n : Nat) : 0 < (utf8EncodeScalar n).length := by
  rw [utf8EncodeScalar]
  split_ifs <;> simp

theorem utf8DecodeLoop_step (fuel : Nat) (n : Nat) (hv : Nat.isValidChar n)
    (bs : List Nat) :
    utf8DecodeLoop (fuel + 1) (utf8EncodeScalar n ++ bs)
      = (utf8DecodeLoop fuel bs).map (n :: ·) := by
  obtain ⟨b, t, hbt⟩ : ∃ b t, utf8EncodeScalar n ++ bs = b :: t := by
    cases hE : utf8EncodeScalar n with
    | nil =>
        have := utf8EncodeScalar_length_pos n
        rw [hE] at this
        simp at this
    | cons b bs2 => exact ⟨b, bs2 ++ bs, by simp [hE]⟩
  rw [hbt, utf8DecodeLoop, ← hbt, utf8DecodeOne_encodeScalar n hv bs]

/-- Round trip, generalized over fuel: the byte content of any Rust
`String` passes `String::from_utf8` validation and decodes back to its
scalar values. -/
theorem utf8DecodeLoop_utf8Encode (cs : List Char) (fuel : Nat)
    (hf : (utf8Encode cs).length ≤ fuel) :
    utf8DecodeLoop fuel (utf8Encode cs) = some (cs.map Char.toNat) := by
  induction cs generalizing fuel with
  | nil =>
      have hnil : utf8Encode [] = [] := rfl
      rw [hnil]
      cases fuel <;> rfl
  | cons c rest ih =>
      have hsplit : utf8Encode (c :: rest)
          = utf8EncodeScalar c.toNat ++ utf8Encode rest := by
        simp [utf8Encode]
      rw [hsplit] at hf ⊢
      have hpos := utf8EncodeScalar_length_pos c.toNat
      obtain ⟨f, rfl⟩ : ∃ f, fuel = f + 1 := by
        rcases fuel with _ | f
        · exfalso; rw [List.length_append] at hf; omega
        · exact ⟨f, rfl⟩
      rw [utf8DecodeLoop_step f c.toNat c.valid]
      have hrest : (utf8Encode rest).length ≤ f := by
        rw [List.length_append] at hf; omega
      rw [ih f hrest]
      rfl

/-- Round trip at the fuel `utf8Decode` itself uses. -/
theorem utf8Decode_utf8Encode (cs : List Char) :
    utf8Decode (utf8Encode cs) = some (cs.map Char.toNat) :=
  utf8DecodeLoop_utf8Encode cs (utf8Encode cs).length le_rfl

/-! ### JSON serialization (`serde_json`, external collaborator)

A `chromiumoxide_types::Message` serializes to a JSON tree of objects with
string keys, strings, integers, booleans and null.  `serde_json::to_vec`
writes the tree as JSON text into a byte buffer: ASCII syntax characters,
escaped string contents, and the raw UTF-8 bytes of unescaped characters —
i.e. the UTF-8 encoding of the rendered JSON text.  Serializing such a tree
has no failing path (all object keys are strings and none of the involved
`Serialize` impls can return an error), so the `Result` is always `Ok`. -/

/-- A JSON tree (`serde_json::Value` restricted to what the devtools
message types produce; numbers are the integer ids and codes they use). -/
inductive JsonValue where
  | vNull
  | vBool (flag : Bool)
  | vNum (value : Int)
  | vStr (text : List Char)
  | vArr (items : List JsonValue)
  | vObj (members : List (List Char × JsonValue))

/-- serde_json's string escaping: quote and backslash escaped, the short
control escapes, `\u00XX` (lowercase hex) for the other control
characters, every other character written through unchanged. -/
def jsonEscapeChar (c : Char) : List Char :=
  if c = '"' then ['\\', '"']
  else if c = '\\' then ['\\', '\\']
  else if c.toNat = 8 then ['\\', 'b']
  else if c.toNat = 9 then ['\\', 't']
  else if c.toNat = 10 then ['\\', 'n']
  else if c.toNat = 12 then ['\\', 'f']
  else if c.toNat = 13 then ['\\', 'r']
  else if c.toNat < 32 then
    ['\\', 'u', '0', '0', hexDigit (c.toNat / 16), hexDigit (c.toNat % 16)]
  else [c]

/-- A JSON string literal's characters. -/
def jsonStringChars (s : List Char) : List Char :=
  '"' :: (s.map jsonEscapeChar).flatten ++ ['"']

mutual

/-- The JSON text serde_json renders for a tree. -/
def JsonValue.render : JsonValue → List Char
  | .vNull => "null".toList
  | .vBool true => "true".toList
  | .vBool false => "false".toList
  | .vNum n => (toString n).toList
  | .vStr s => jsonStringChars s
  | .vArr es => '[' :: JsonValue.renderItems es ++ [']']
  | .vObj fs => '{' :: JsonValue.renderMembers fs ++ ['}']

/-- Comma-separated array elements. -/
def JsonValue.renderItems : List JsonValue → List Char
  | [] => []
  | [x] => JsonValue.render x
  | x :: y :: rest => JsonValue.render x ++ ',' :: JsonValue.renderItems (y :: rest)

/-- Comma-separated `"key":value` object members. -/
def JsonValue.renderMembers : List (List Char × JsonValue) → List Char
  | [] => []
  | [(k, v)] => jsonStringChars k ++ ':' :: JsonValue.render v
  | (k, v) :: f :: rest =>
      jsonStringChars k ++ ':' :: JsonValue.render v
        ++ ',' :: JsonValue.renderMembers (f :: rest)

end

/-- `chromiumoxide_types::CallId`: an integer call identifier. -/
abbrev CallId := Int

/-- `chromiumoxide_types::Message`: an outbound devtools message — a
response to a method call or an event notification — modelled by the
fields its JSON serialization carries. -/
inductive Message where
  | response (id : CallId) (result : Option JsonValue) (error : Option (Int × List Char))
  | event (method : List Char) (params : JsonValue)

/-- The JSON tree a `Message` serializes to. -/
def Message.toJson : Message → JsonValue
  | .response id result error =>
      .vObj (("id".toList, JsonValue.vNum id)
        :: (match result with
            | some r => [("result".toList, r)]
            | none => [])
        ++ (match error with
            | some (code, msg) =>
                [("error".toList,
                  JsonValue.vObj [("code".toList, JsonValue.vNum code),
                    ("message".toList, JsonValue.vStr msg)])]
            | none => []))
  | .event method params =>
      .vObj [("method".toList, JsonValue.vStr method), ("params".toList, params)]

/-- Serialization errors of `serde_json::to_vec` (unreachable for these
message trees; the `?` in `send` would propagate one). -/
inductive SerializeError where
  | fail
deriving DecidableEq, Repr

/-- `serde_json::to_vec(&response)`: the UTF-8 bytes of the rendered JSON
text. -/
def serde_json_to_vec (v : JsonValue) : Except SerializeError (List Nat) :=
  .ok (utf8Encode v.render)

/-- `String::from_utf8`: the decoded scalar values, or `None` when the
bytes are not valid UTF-8 (in which case the source's `.unwrap()`
panics). -/
def string_from_utf8 (bs : List Nat) : Option (List Nat) := utf8Decode bs

/-- `tungstenite` transport I/O errors, abstract. -/
structure TransportError where
  code : Nat
deriving DecidableEq, Repr

/-- The error cases of `ServerConnection::send`'s boxed `Error`: the `?` on
serialization, the panic of the `.unwrap()` on `String::from_utf8`
(modelled explicitly so its unreachability is a statement, not an
assumption), and the `?` on the websocket transmission. -/
inductive SendError where
  | serialize (e : SerializeError)
  | utf8Panic
  | transport (e : TransportError)
deriving DecidableEq, Repr

/-- `ServerConnection::send` (devtools_server/src/lib.rs lines 107-116):
serialize, convert to text, transmit.  The underlying
`wss.send(tungstenite::Message::Text(..))` is the external websocket
transport, passed in as a function of the text's scalar values. -/
def ServerConnection.send (transport : List Nat → Except TransportError Unit)
    (response : Message) : Except SendError Unit :=
  match serde_json_to_vec response.toJson with
  | .error e => .error (.serialize e)
  | .ok text =>
      match string_from_utf8 text with
      | none => .error .utf8Panic
      | some s =>
          match transport s with
          | .error e => .error (.transport e)
          | .ok _ => .ok ()

theorem ServerConnection.send_eq (transport : List Nat → Except TransportError Unit)
    (m : Message) :
    ServerConnection.send transport m
      = match transport (m.toJson.render.map Char.toNat) with
        | .error e => .error (.transport e)
        | .ok _ => .ok () := by
  simp only [ServerConnection.send, serde_json_to_vec, string_from_utf8,
    utf8Decode_utf8Encode]

/-- C9: for every message, the serialized byte vector is valid UTF-8:
`serde_json::to_vec` yields bytes on which `String::from_utf8` succeeds,
so the `.unwrap()` branch in `send` (the `utf8Panic` error of the model)
is unreachable under every transport. -/
theorem C9_serialized_bytes_valid_utf8 (m : Message) :
    ∃ bs, serde_json_to_vec m.toJson = .ok bs ∧ (string_from_utf8 bs).isSome ∧
      ∀ transport, ServerConnection.send transport m ≠ .error .utf8Panic := by
  refine ⟨utf8Encode m.toJson.render, rfl, ?_, ?_⟩
  · show (utf8Decode (utf8Encode m.toJson.render)).isSome
    rw [utf8Decode_utf8Encode]
    rfl
  · intro transport
    rw [ServerConnection.send_eq]
    cases transport (m.toJson.render.map Char.toNat) <;> simp

/-- C5: `send` fails only on a transport I/O error: when the websocket
transmission succeeds it returns `Ok`, and every `Err` it returns carries
a transport error — never a serialization fault. -/
theorem C5_send_fails_only_on_transport
    (transport : List Nat → Except TransportError Unit) (m : Message) :
    (transport (m.toJson.render.map Char.toNat) = .ok () →
      ServerConnection.send transport m = .ok ()) ∧
      ∀ e, ServerConnection.send transport m = .error e →
        ∃ te, e = SendError.transport te := by
  rw [ServerConnection.send_eq]
  cases htr : transport (m.toJson.render.map Char.toNat) with
  | error te =>
      refine ⟨fun h => by simp at h, fun e he => ⟨te, ?_⟩⟩
      simpa using he.symm
  | ok u => exact ⟨fun _ => rfl, fun e he => by simp at he⟩

/-- Witness for C5 at a concrete always-ok transport and a concrete
message. -/
theorem C5_send_fails_only_on_transport_witness :
    (fun _ : List Nat => (Except.ok () : Except TransportError Unit))
        ((Message.event "go".toList JsonValue.vNull).toJson.render.map Char.toNat) = .ok () ∧
      ServerConnection.send (fun _ => .ok ()) (Message.event "go".toList JsonValue.vNull)
        = .ok () := by
  refine ⟨rfl, ?_⟩
  exact (C5_send_fails_only_on_transport (fun _ => .ok ())
    (Message.event "go".toList JsonValue.vNull)).1 rfl

/-! ### Inbound stream of a `ServerConnection` (lib.rs lines 124-141) -/

/-- `std::task::Poll`. -/
inductive Poll (α : Type) where
  | ready (a : α)
  | pending
deriving DecidableEq, Repr

/-- One poll outcome of the underlying `WebSocketStream`. -/
inductive WsPoll where
  | pending
  | closed
  | msg (data : List Nat)
  | ioError (e : TransportError)
deriving DecidableEq, Repr

/-- The underlying websocket stream of one connection, modelled by the
sequence of poll outcomes it will produce (exhaustion = disconnect). -/
structure WsState where
  polls : List WsPoll
deriving DecidableEq, Repr

/-- `chromiumoxide_types::MethodCall`: an inbound typed call. -/
structure MethodCall where
  id : CallId
  method : List Char
  params : JsonValue

/-- Errors yielded by the inbound stream: a websocket transport fault (the
`res?`) or a `serde_json::from_slice` deserialization fault (the second
`?`). -/
inductive RecvError where
  | transport (e : TransportError)
  | deserialize

/-- `<ServerConnection as Stream>::poll_next` (lib.rs lines 127-140),
parameterized by the external deserializer `serde_json::from_slice`
(`none` = malformed bytes): `Ready(None)` ends the stream on disconnect,
a transport or deserialization fault is yielded as an `Err` item, a
well-formed message as an `Ok` item. -/
def ServerConnection.poll_next (fromSlice : List Nat → Option MethodCall)
    (s : WsState) : Poll (Option (Except RecvError MethodCall)) × WsState :=
  match s.polls with
  | [] => (.ready none, ⟨[]⟩)
  | .pending :: rest => (.pending, ⟨rest⟩)
  | .closed :: rest => (.ready none, ⟨rest⟩)
  | .ioError e :: rest => (.ready (some (.error (.transport e))), ⟨rest⟩)
  | .msg data :: rest =>
      match fromSlice data with
      | none => (.ready (some (.error .deserialize)), ⟨rest⟩)
      | some m => (.ready (some (.ok m)), ⟨rest⟩)

/-- A set of independent server connections (one websocket state each);
polling connection `i` reads and rewrites only slot `i`. -/
def pollConnAt (fromSlice : List Nat → Option MethodCall)
    (conns : List WsState) (i : Nat) :
    Option (Poll (Option (Except RecvError MethodCall))) × List WsState :=
  match conns[i]? with
  | none => (none, conns)
  | some s =>
      (some (ServerConnection.poll_next fromSlice s).1,
        conns.set i (ServerConnection.poll_next fromSlice s).2)

/-- C4: the inbound stream's taxonomy — peer disconnect ends the stream
(`Ready(None)`), malformed bytes yield a deserialization fault as an error
item (never a value and never a panic), well-formed bytes yield the typed
call — and a fault is confined to its own connection: polling connection
`i` leaves every other connection's state untouched. -/
theorem C4_inbound_stream_faults (fromSlice : List Nat → Option MethodCall)
    (s : WsState) (conns : List WsState) (i j : Nat) (hij : i ≠ j) :
    (∀ rest, s.polls = .closed :: rest →
        (ServerConnection.poll_next fromSlice s).1 = .ready none) ∧
      (∀ d rest, s.polls = .msg d :: rest → fromSlice d = none →
        (ServerConnection.poll_next fromSlice s).1
          = .ready (some (.error .deserialize))) ∧
      (∀ d rest m, s.polls = .msg d :: rest → fromSlice d = some m →
        (ServerConnection.poll_next fromSlice s).1 = .ready (some (.ok m))) ∧
      (pollConnAt fromSlice conns i).2[j]? = conns[j]? := by
  refine ⟨?_, ?_, ?_, ?_⟩
  · intro rest hp
    simp [ServerConnection.poll_next, hp]
  · intro d rest hp hde
    simp [ServerConnection.poll_next, hp, hde]
  · intro d rest m hp hde
    simp [ServerConnection.poll_next, hp, hde]
  · cases hg : conns[i]? with
    | none => simp [pollConnAt, hg]
    | some s0 =>
        simp only [pollConnAt, hg]
        exact List.getElem?_set_ne hij

/-- Witness for C4 at a concrete deserializer, connection and system. -/
theorem C4_inbound_stream_faults_witness :
    (ServerConnection.poll_next (fun _ => none) ⟨[.closed]⟩).1 = .ready none ∧
      (ServerConnection.poll_next (fun _ => none) ⟨[.msg [0], .closed]⟩).1
        = .ready (some (.error .deserialize)) ∧
      (pollConnAt (fun _ => none) [⟨[.msg [0]]⟩, ⟨[.closed]⟩] 0).2[1]?
        = [(⟨[.msg [0]]⟩ : WsState), ⟨[.closed]⟩][1]? := by
  obtain ⟨h1, h2, _, h4⟩ := C4_inbound_stream_faults (fun _ => none) ⟨[.closed]⟩
    [⟨[.msg [0]]⟩, ⟨[.closed]⟩] 0 1 (by decide)
  obtain ⟨_, h2b, _, _⟩ := C4_inbound_stream_faults (fun _ => none) ⟨[.msg [0], .closed]⟩
    [⟨[.msg [0]]⟩, ⟨[.closed]⟩] 0 1 (by decide)
  exact ⟨h1 [] rfl, h2b [0] [.closed] rfl rfl, h4⟩

/-! ### Connection accept stream (lib.rs lines 29-83) -/

/-- The websocket handshake future (`tokio_tungstenite::accept_async`) of
one accepted TCP stream: how many more polls it needs, whether it succeeds,
and the identity of the connection it produces. -/
structure UpgradeFuture where
  remaining : Nat
  succeeds : Bool
  connId : Nat
deriving DecidableEq, Repr

/-- An upgraded connection yielded by the accept stream,
`ServerConnection::new(wss)`. -/
structure ServerConn where
  connId : Nat
deriving DecidableEq, Repr

/-- `ConnectionStream` state (lib.rs lines 29-32): the stored in-flight
upgrade (`next`) and the kernel queue of inbound TCP connections waiting in
`listener.poll_accept`, each carrying the upgrade work it will need. -/
structure ConnectionStreamState where
  next : Option UpgradeFuture
  acceptQueue : List UpgradeFuture
deriving DecidableEq, Repr

/-- Poll the stored upgrade (`Future::poll(p, cx)` on `next`): ready when
its remaining poll count is zero — the code then clears `next` and yields
the connection, or the handshake error via `let wss = r?` — otherwise
pending, with the future retained in `next` having made one poll of
progress. -/
def pollUpgradeStored (f : UpgradeFuture) (q : List UpgradeFuture) :
    Poll (Option (Except TransportError ServerConn)) × ConnectionStreamState :=
  if f.remaining = 0 then
    (.ready (some (if f.succeeds then .ok ⟨f.connId⟩ else .error ⟨f.connId⟩)),
      ⟨none, q⟩)
  else
    (.pending, ⟨some ⟨f.remaining - 1, f.succeeds, f.connId⟩, q⟩)

/-- `<ConnectionStream as Stream>::poll_next` (lib.rs lines 52-82): if an
upgrade is stored, poll it; otherwise poll the accept queue — when a
connection is ready, store its upgrade and, per the `continue`, poll that
upgrade in the same call. -/
def ConnectionStream.poll_next (s : ConnectionStreamState) :
    Poll (Option (Except TransportError ServerConn)) × ConnectionStreamState :=
  match s.next with
  | some f => pollUpgradeStored f s.acceptQueue
  | none =>
      match s.acceptQueue with
      | [] => (.pending, s)
      | c :: rest => pollUpgradeStored c rest

/-- Drive the accept stream for a number of polls, collecting the items it
yields (the consumer re-polls after each item and whenever woken). -/
def ConnectionStream.drive : Nat → ConnectionStreamState →
    List (Except TransportError ServerConn) × ConnectionStreamState
  | 0, s => ([], s)
  | fuel + 1, s =>
      match ConnectionStream.poll_next s with
      | (.ready (some item), s2) =>
          ((ConnectionStream.drive fuel s2).1.cons item,
            (ConnectionStream.drive fuel s2).2)
      | (.ready none, s2) => ([], s2)
      | (.pending, s2) => ConnectionStream.drive fuel s2

theorem ConnectionStream.drive_upgrade (r k : Nat) (ok : Bool) (id : Nat)
    (q : List UpgradeFuture) :
    ConnectionStream.drive (r + 1 + k) ⟨some ⟨r, ok, id⟩, q⟩
      = ((ConnectionStream.drive k ⟨none, q⟩).1.cons
          (if ok then .ok ⟨id⟩ else .error ⟨id⟩),
        (ConnectionStream.drive k ⟨none, q⟩).2) := by
  induction r with
  | zero =>
      have h0 : 0 + 1 + k = k + 1 := by omega
      rw [h0, ConnectionStream.drive]
      simp [ConnectionStream.poll_next, pollUpgradeStored]
  | succ r ih =>
      have h0 : r + 1 + 1 + k = (r + 1 + k) + 1 := by omega
      rw [h0, ConnectionStream.drive]
      simp only [ConnectionStream.poll_next, pollUpgradeStored, Nat.succ_ne_zero,
        if_neg, Nat.add_sub_cancel]
      exact ih

theorem ConnectionStream.drive_accept_head (f : Nat) (c : UpgradeFuture)
    (q : List UpgradeFuture) :
    ConnectionStream.drive (f + 1) ⟨none, c :: q⟩
      = ConnectionStream.drive (f + 1) ⟨some c, q⟩ := rfl

/-- C2: the accept loop drops no upgrade work — whenever an upgrade is
stored, one poll either completes and yields it or retains it in `next`
with one poll of progress — and with one upgrade in flight and a second
connection waiting, driving the stream yields both upgraded connections in
arrival order: neither connection's pending upgrade prevents the other from
being accepted and upgraded. -/
theorem C2_accept_never_drops_upgrade (r1 r2 id1 id2 : Nat) :
    (ConnectionStream.drive (r1 + r2 + 2)
        ⟨none, [⟨r1, true, id1⟩, ⟨r2, true, id2⟩]⟩).1
      = [.ok ⟨id1⟩, .ok ⟨id2⟩] ∧
      ∀ (s : ConnectionStreamState) (f : UpgradeFuture), s.next = some f →
        (f.remaining = 0 ∧ ConnectionStream.poll_next s
            = (.ready (some (if f.succeeds then .ok ⟨f.connId⟩
                else .error ⟨f.connId⟩)), ⟨none, s.acceptQueue⟩)) ∨
        (f.remaining ≠ 0 ∧ ConnectionStream.poll_next s
            = (.pending,
              ⟨some ⟨f.remaining - 1, f.succeeds, f.connId⟩, s.acceptQueue⟩)) := by
  constructor
  · have h2 : r1 + r2 + 2 = r1 + (r2 + 1) + 1 := by omega
    rw [h2, ConnectionStream.drive_accept_head (r1 + (r2 + 1)) ⟨r1, true, id1⟩
      [⟨r2, true, id2⟩]]
    have h3 : r1 + (r2 + 1) + 1 = r1 + 1 + (r2 + 1) := by omega
    rw [h3, ConnectionStream.drive_upgrade r1 (r2 + 1) true id1 [⟨r2, true, id2⟩]]
    rw [ConnectionStream.drive_accept_head r2 ⟨r2, true, id2⟩ []]
    have h4 : r2 + 1 = r2 + 1 + 0 := by omega
    rw [h4, ConnectionStream.drive_upgrade r2 0 true id2 []]
    simp [ConnectionStream.drive]
  · rintro ⟨nx, q⟩ f hf
    cases hf
    by_cases h0 : f.remaining = 0
    · exact Or.inl ⟨h0, by simp [ConnectionStream.poll_next, pollUpgradeStored, h0]⟩
    · exact Or.inr ⟨h0, by simp [ConnectionStream.poll_next, pollUpgradeStored, h0]⟩

/-- Witness for C2 at concrete poll counts and a concrete stored upgrade. -/
theorem C2_accept_never_drops_upgrade_witness :
    (ConnectionStream.drive (1 + 2 + 2)
        ⟨none, [⟨1, true, 7⟩, ⟨2, true, 8⟩]⟩).1 = [.ok ⟨7⟩, .ok ⟨8⟩] ∧
      ((3 : Nat) ≠ 0 ∧ ConnectionStream.poll_next ⟨some ⟨3, true, 9⟩, []⟩
          = (.pending, ⟨some ⟨2, true, 9⟩, []⟩)) := by
  obtain ⟨h1, h2⟩ := C2_accept_never_drops_upgrade 1 2 7 8
  refine ⟨h1, ?_⟩
  rcases h2 ⟨some ⟨3, true, 9⟩, []⟩ ⟨3, true, 9⟩ rfl with ⟨h, -⟩ | ⟨h, hp⟩
  · exact absurd h (by decide)
  · exact ⟨by decide, hp⟩

end Clipper
